import Mathlib

/-!
Shallow embedding of the graphb GraphQL query builder.

The repository renders a tree of `Query` / `Field` / `Argument` values to GraphQL
document text through a lazy token channel.  Here a token channel is modelled as the
finite list of strings the producing goroutine emits before closing the channel, in
emission order; `none` models a production that never completes normally (the
goroutine dereferences a nil `Argument.Value`).  Go errors are modelled by the
`GraphErr` inductive, and Go's `(value, error)` multiple returns by pairs with an
`Option GraphErr` component.

Definitions are translated from `src/query.go` and the argument/value file
`src/unnamed/part_000`.  Parts of the repository that are not under `src/`
(the `Field` type, the error declarations, the `validName` regular expression,
`isValidOperationType` and `StringFromChan`) are modelled from the spec and marked
as such in their doc comments.
-/

namespace Graphb

/-- Modelled from the spec: a `time.Time` value (the `time` package is external to
the repository).  The code observes a timestamp only through
`time.Time(v).Format(time.RFC3339)`, so a timestamp is represented by its RFC-3339
rendering. -/
structure Time where
  rfc3339 : String
  deriving DecidableEq

mutual

/-- Embeds the closed set of `argumentValue` implementations of
`src/unnamed/part_000`: `argBool`, `argInt`, `argString`, `argQuotedString`,
`argBlockString`, `argEnum`, `argTime`, `argBoolSlice`, `argIntSlice`,
`argStringSlice`, `argEnumSlice`, `argumentCustom` and `argArgSlice`. -/
inductive ArgumentValue : Type where
  | argBool (v : Bool) : ArgumentValue
  | argInt (v : Int) : ArgumentValue
  | argString (v : String) : ArgumentValue
  | argQuotedString (v : String) : ArgumentValue
  | argBlockString (v : String) : ArgumentValue
  | argEnum (v : String) : ArgumentValue
  | argTime (v : Time) : ArgumentValue
  | argBoolSlice (v : List Bool) : ArgumentValue
  | argIntSlice (v : List Int) : ArgumentValue
  | argStringSlice (v : List String) : ArgumentValue
  | argEnumSlice (v : List String) : ArgumentValue
  | argumentCustom (v : List Argument) : ArgumentValue
  | argArgSlice (v : List (List Argument)) : ArgumentValue

/-- Embeds the Go struct `Argument` of `src/unnamed/part_000`: a `Name` and a
`Value` of interface type `argumentValue`.  The interface value may be nil, hence
`Option`; the zero value `Argument\x7b\x7d` is `Argument.mk "" none`. -/
inductive Argument : Type where
  | mk (Name : String) (Value : Option ArgumentValue) : Argument

end

/-- Projects the `Name` field of an `Argument`. -/
def Argument.Name : Argument → String
  | .mk n _ => n

/-- Projects the `Value` field of an `Argument`. -/
def Argument.Value : Argument → Option ArgumentValue
  | .mk _ v => v

/-- Models the dynamic (`interface\x7b\x7d`) value passed to `ArgumentAny`.  The
supported runtime shapes of the `switch` in `src/unnamed/part_000` are listed
explicitly; `goOther` stands for every other runtime shape (float, map, struct,
nil, ...), identified by a descriptive tag, and is exactly the set of shapes that
reach the `default` branch. -/
inductive GoValue : Type where
  | goBool (v : Bool) : GoValue
  | goBoolSlice (v : List Bool) : GoValue
  | goInt (v : Int) : GoValue
  | goIntSlice (v : List Int) : GoValue
  | goString (v : String) : GoValue
  | goStringSlice (v : List String) : GoValue
  | goTime (v : Time) : GoValue
  | goOther (shape : String) : GoValue
  deriving DecidableEq

/-- Modelled from the spec: the kind of name carried by an InvalidName error
("carries which kind of name and the offending text"); the declarations of these
constants are not under src/.  `src/query.go` line 91 uses `operationName`. -/
inductive nameType : Type where
  | operationName : nameType
  | fieldName : nameType
  deriving DecidableEq

/-- Modelled from the spec, section 7: the error kinds of the repository
(`ArgumentTypeNotSupportedErr`, `InvalidOperationTypeErr`, `InvalidNameErr`,
`NilFieldErr`); the error declarations file is not under src/.  The payloads are
those used by the code under src/: the offending value, the offending operation
type, the kind of name together with the offending text. -/
inductive GraphErr : Type where
  | argumentTypeNotSupportedErr (Value : GoValue) : GraphErr
  | invalidOperationTypeErr (t : String) : GraphErr
  | invalidNameErr (kind : nameType) (name : String) : GraphErr
  | nilFieldErr : GraphErr
  deriving DecidableEq

/-- Modelled from the spec: first character of the name grammar
`/^[_A-Za-z][_0-9A-Za-z]*$/` (the `validName` regular expression is declared in a
file not under src/). -/
def isNameStartChar (c : Char) : Bool :=
  c == '_' || c.isAlpha

/-- Modelled from the spec: subsequent characters of the name grammar
`/^[_A-Za-z][_0-9A-Za-z]*$/`. -/
def isNameChar (c : Char) : Bool :=
  isNameStartChar c || c.isDigit

/-- Modelled from the spec: `validName.MatchString`, where `validName` is the
anchored regular expression `/^[_A-Za-z][_0-9A-Za-z]*$/` (declared in a file not
under src/): a leading letter or underscore followed by letters, digits or
underscores; the empty string does not match. -/
def validNameMatch (s : String) : Bool :=
  match s.data with
  | [] => false
  | c :: cs => isNameStartChar c && cs.all isNameChar

/-- Renders a boolean as `fmt.Sprintf("%t", v)` does. -/
def boolToken (v : Bool) : String :=
  if v then "true" else "false"

/-- Renders an integer as `fmt.Sprintf("%d", v)` does. -/
def intToken (v : Int) : String :=
  toString v

/-- Joins the tail of a list of token streams: every stream is preceded by a
`","` (the `i != 0` branch of the Go rendering loops). -/
def joinStreamsRest : List (List String) → List String
  | [] => []
  | ts :: rest => "," :: (ts ++ joinStreamsRest rest)

/-- Concatenates a list of token streams, emitting a `","` before every stream but
the first: the token sequence produced by the Go loops
`for i, v := range s \x7b if i != 0 \x7b ch <- "," \x7d; emit v \x7d`. -/
def joinStreams : List (List String) → List String
  | [] => []
  | ts :: rest => ts ++ joinStreamsRest rest

mutual

/-- Embeds the `stringChan` methods of the `argumentValue` implementations in
`src/unnamed/part_000`, collected into one function by case on the variant.
Scalars emit one token (`%t`, `%d`, `"%s"`, the raw-string format
`"\\"%s\\""` for `argQuotedString`, `"""%s"""`, `%s`, quoted RFC-3339); the
slice variants emit `[`, the element tokens with a `,` before every element but
the first, then `]`; `argumentCustom` emits `\x7b`, its arguments' streams with a
`,` before every stream but the first, then `\x7d`; `argArgSlice` does the same
with `[` `]` around the braced stream of each inner argument list
(`argumentCustom(v).stringChan()`). -/
def ArgumentValue.stringChan : ArgumentValue → Option (List String)
  | .argBool v => some [boolToken v]
  | .argInt v => some [intToken v]
  | .argString v => some ["\"" ++ v ++ "\""]
  | .argQuotedString v => some ["\"\\\\\"" ++ v ++ "\\\\\"\""]
  | .argBlockString v => some ["\"\"\"" ++ v ++ "\"\"\""]
  | .argEnum v => some [v]
  | .argTime v => some ["\"" ++ v.rfc3339 ++ "\""]
  | .argBoolSlice v => some ("[" :: joinStreams (v.map (fun b => [boolToken b])) ++ ["]"])
  | .argIntSlice v => some ("[" :: joinStreams (v.map (fun n => [intToken n])) ++ ["]"])
  | .argStringSlice v => some ("[" :: joinStreams (v.map (fun s => ["\"" ++ s ++ "\""])) ++ ["]"])
  | .argEnumSlice v => some ("[" :: joinStreams (v.map (fun s => [s])) ++ ["]"])
  | .argumentCustom v =>
      (argumentStreams v).map (fun tss => "\x7b" :: joinStreams tss ++ ["\x7d"])
  | .argArgSlice v =>
      (objectStreams v).map (fun tss => "[" :: joinStreams tss ++ ["]"])

/-- Embeds `(*Argument).stringChan` of `src/unnamed/part_000`: emits the name,
`:`, then the value's tokens.  A nil `Value` makes the producing goroutine panic,
modelled by `none`. -/
def Argument.stringChan : Argument → Option (List String)
  | .mk n (some v) => (ArgumentValue.stringChan v).map (fun ts => n :: ":" :: ts)
  | .mk _ none => none

/-- Renders each argument of a list to its token stream (used by the
`argumentCustom` loop); `none` as soon as one of them panics. -/
def argumentStreams : List Argument → Option (List (List String))
  | [] => some []
  | a :: rest =>
      match Argument.stringChan a, argumentStreams rest with
      | some ts, some rs => some (ts :: rs)
      | _, _ => none

/-- Renders each inner argument list of an `argArgSlice` the way the Go loop
renders `argumentCustom(v).stringChan()`: the inner list's streams joined with
`,` between them, wrapped in braces. -/
def objectStreams : List (List Argument) → Option (List (List String))
  | [] => some []
  | args :: rest =>
      match argumentStreams args, objectStreams rest with
      | some ts, some rs => some (("\x7b" :: joinStreams ts ++ ["\x7d"]) :: rs)
      | _, _ => none

end

/-- Embeds `ArgumentBool` of `src/unnamed/part_000`. -/
def ArgumentBool (name : String) (value : Bool) : Argument :=
  .mk name (some (.argBool value))

/-- Embeds `ArgumentInt` of `src/unnamed/part_000`. -/
def ArgumentInt (name : String) (value : Int) : Argument :=
  .mk name (some (.argInt value))

/-- Embeds `ArgumentString` of `src/unnamed/part_000`. -/
def ArgumentString (name : String) (value : String) : Argument :=
  .mk name (some (.argString value))

/-- Embeds `ArgumentQuotedString` of `src/unnamed/part_000`. -/
def ArgumentQuotedString (name : String) (value : String) : Argument :=
  .mk name (some (.argQuotedString value))

/-- Embeds `ArgumentBlockString` of `src/unnamed/part_000`. -/
def ArgumentBlockString (name : String) (value : String) : Argument :=
  .mk name (some (.argBlockString value))

/-- Embeds `ArgumentEnum` of `src/unnamed/part_000`. -/
def ArgumentEnum (name : String) (value : String) : Argument :=
  .mk name (some (.argEnum value))

/-- Embeds `ArgumentTime` of `src/unnamed/part_000`. -/
def ArgumentTime (name : String) (value : Time) : Argument :=
  .mk name (some (.argTime value))

/-- Embeds `ArgumentBoolSlice` of `src/unnamed/part_000`. -/
def ArgumentBoolSlice (name : String) (values : List Bool) : Argument :=
  .mk name (some (.argBoolSlice values))

/-- Embeds `ArgumentIntSlice` of `src/unnamed/part_000`. -/
def ArgumentIntSlice (name : String) (values : List Int) : Argument :=
  .mk name (some (.argIntSlice values))

/-- Embeds `ArgumentStringSlice` of `src/unnamed/part_000`. -/
def ArgumentStringSlice (name : String) (values : List String) : Argument :=
  .mk name (some (.argStringSlice values))

/-- Embeds `ArgumentEnumSlice` of `src/unnamed/part_000`. -/
def ArgumentEnumSlice (name : String) (values : List String) : Argument :=
  .mk name (some (.argEnumSlice values))

/-- Embeds `ArgumentCustomType` of `src/unnamed/part_000`. -/
def ArgumentCustomType (name : String) (values : List Argument) : Argument :=
  .mk name (some (.argumentCustom values))

/-- Embeds `ArgumentSlice` of `src/unnamed/part_000`. -/
def ArgumentSlice (name : String) (values : List (List Argument)) : Argument :=
  .mk name (some (.argArgSlice values))

/-- Embeds `ArgumentAny` of `src/unnamed/part_000`: the type switch dispatches the
supported shapes to the matching constructor with a nil error; the `default`
branch returns the zero `Argument\x7b\x7d` together with
`ArgumentTypeNotSupportedErr\x7bValue: value\x7d`.  Go's `(Argument, error)`
return is the pair. -/
def ArgumentAny (name : String) : GoValue → Argument × Option GraphErr
  | .goBool v => (ArgumentBool name v, none)
  | .goBoolSlice v => (ArgumentBoolSlice name v, none)
  | .goInt v => (ArgumentInt name v, none)
  | .goIntSlice v => (ArgumentIntSlice name v, none)
  | .goString v => (ArgumentString name v, none)
  | .goStringSlice v => (ArgumentStringSlice name v, none)
  | .goTime v => (ArgumentTime name v, none)
  | .goOther shape => (Argument.mk "" none, some (.argumentTypeNotSupportedErr (.goOther shape)))

/-- Modelled from the spec, section 3: the `Field` struct (its file is not under
src/): a name, an optional alias, an ordered sequence of arguments and an ordered
sequence of subfields.  Subfield slots are Go pointers and may be nil, hence
`Option`. -/
inductive Field : Type where
  | mk (Name : String) (Alias : String) (Arguments : List Argument)
      (Fields : List (Option Field)) : Field

/-- Projects the `Name` field of a `Field`. -/
def Field.Name : Field → String
  | .mk n _ _ _ => n

/-- Projects the `Alias` field of a `Field`. -/
def Field.Alias : Field → String
  | .mk _ a _ _ => a

/-- Projects the `Arguments` field of a `Field`. -/
def Field.Arguments : Field → List Argument
  | .mk _ _ args _ => args

/-- Projects the `Fields` field of a `Field`. -/
def Field.Fields : Field → List (Option Field)
  | .mk _ _ _ fs => fs

mutual

/-- Modelled from the spec, section 4.3 (the `Field` file is not under src/):
`(*Field).check` recursively checks this field's name — the alias if aliased,
otherwise the field name — against the name grammar, then validates every
subfield, failing fast with the first error; a nil subfield slot is the
MissingField error (spec section 7). -/
def Field.check : Field → Except GraphErr Unit
  | .mk name al _ subs =>
      if validNameMatch (if al == "" then name else al) then fieldsCheck subs
      else .error (.invalidNameErr .fieldName (if al == "" then name else al))

/-- Modelled from the spec: validation of a subfield list, in order, failing fast;
a nil slot yields `NilFieldErr`, a present subfield is checked recursively. -/
def fieldsCheck : List (Option Field) → Except GraphErr Unit
  | [] => .ok ()
  | none :: _ => .error .nilFieldErr
  | some f :: rest =>
      match Field.check f with
      | .error e => .error e
      | .ok _ => fieldsCheck rest

end

mutual

/-- Modelled from the spec, section 4.3 (the `Field` file is not under src/):
`(*Field).stringChan` emits the optional alias and `:` if aliased, the field
name, then if arguments exist `(` + the argument streams with `,` between them +
`)`, then if subfields exist `\x7b` + the subfield streams, each followed by a
trailing `,` as at the query level (the spec calls the join
trailing-comma-tolerant) + `\x7d`. -/
def Field.stringChan : Field → Option (List String)
  | .mk name al args subs =>
      match (if args.isEmpty then some []
             else (argumentStreams args).map (fun tss => "(" :: joinStreams tss ++ [")"])),
            (if subs.isEmpty then some []
             else (fieldStreams subs).map (fun ts => "\x7b" :: ts ++ ["\x7d"])) with
      | some argToks, some subToks =>
          some ((if al == "" then [] else [al, ":"]) ++ name :: (argToks ++ subToks))
      | _, _ => none

/-- Modelled from the spec: the subfield loop of `(*Field).stringChan`; each
subfield's stream is followed by one `,`.  A nil slot would be a nil pointer
dereference in the producing goroutine, modelled by `none`. -/
def fieldStreams : List (Option Field) → Option (List String)
  | [] => some []
  | none :: _ => none
  | some f :: rest =>
      match Field.stringChan f, fieldStreams rest with
      | some ts, some rs => some (ts ++ "," :: rs)
      | _, _ => none

end

mutual

/-- Decides whether a field's subtree contains a nil subfield slot. -/
def Field.hasNilSubfield : Field → Bool
  | .mk _ _ _ subs => fieldsHaveNil subs

/-- Decides whether a subfield list contains a nil slot, directly or inside one
of its present subfields. -/
def fieldsHaveNil : List (Option Field) → Bool
  | [] => false
  | none :: _ => true
  | some f :: rest => Field.hasNilSubfield f || fieldsHaveNil rest

end

/-- Embeds the Go struct `Query` of `src/query.go`: operation type (the Go string
type `operationType`), operation name, and top-level field pointers (nilable,
hence `Option`).  The Go field `Type` is called `Typ` here because `Type` is a
Lean keyword. -/
structure Query where
  Typ : String
  Name : String
  Fields : List (Option Field)

/-- Embeds `MakeQuery` of `src/query.go`: a `Query` of the given type with zero
name and fields. -/
def MakeQuery (t : String) : Query :=
  ⟨t, "", []⟩

/-- Decides whether a query's field list contains a nil slot, at the top level or
inside any field's subfield list. -/
def Query.hasNilField (q : Query) : Bool :=
  fieldsHaveNil q.Fields

/-- Modelled from the spec, section 3 (the declaration is not under src/):
`isValidOperationType` holds exactly for the three recognized operation kinds
`query`, `mutation` and `subscription`. -/
def isValidOperationType (t : String) : Bool :=
  t == "query" || t == "mutation" || t == "subscription"

/-- Embeds `(*Query).checkName` of `src/query.go` lines 89-94: a non-empty
operation name that does not match `validName` is `InvalidNameErr\x7boperationName,
q.Name\x7d`. -/
def Query.checkName (q : Query) : Except GraphErr Unit :=
  if q.Name != "" && !(validNameMatch q.Name) then
    .error (.invalidNameErr .operationName q.Name)
  else .ok ()

/-- Embeds `(*Query).check` of `src/query.go` lines 78-87: an unrecognized
operation type is `InvalidOperationTypeErr\x7bq.Type\x7d`; otherwise the name is
checked. -/
def Query.check (q : Query) : Except GraphErr Unit :=
  if !(isValidOperationType q.Typ) then .error (.invalidOperationTypeErr q.Typ)
  else q.checkName

/-- Embeds the field loop of `(*Query).StringChan`, `src/query.go` lines 40-49:
fields are scanned in order; a nil field is `NilFieldErr`, a present field is
checked with `(*Field).check`, failing fast. -/
def queryFieldsCheck : List (Option Field) → Except GraphErr Unit
  | [] => .ok ()
  | none :: _ => .error .nilFieldErr
  | some f :: rest =>
      match Field.check f with
      | .error e => .error e
      | .ok _ => queryFieldsCheck rest

/-- Embeds the field loop of `(*Query).stringChan`, `src/query.go` lines 65-71:
each field's stream is drained and followed by one `","`.  A nil field would make
the goroutine panic, modelled by `none` (validation prevents this). -/
def queryFieldStreams : List (Option Field) → Option (List String)
  | [] => some []
  | none :: _ => none
  | some f :: rest =>
      match Field.stringChan f, queryFieldStreams rest with
      | some ts, some rs => some (ts ++ "," :: rs)
      | _, _ => none

/-- Embeds `strings.ToLower` as used on the operation type: character-wise
lowercasing (operation types are ASCII). -/
def toLowerString (s : String) : String :=
  ⟨s.data.map Char.toLower⟩

/-- Embeds `(*Query).stringChan` of `src/query.go` lines 54-76: emits the
lowercased operation type, then `" "` and the name if the name is non-empty, then
`\x7b`, every field's stream each followed by `","`, then `\x7d`. -/
def Query.stringChan (q : Query) : Option (List String) :=
  (queryFieldStreams q.Fields).map (fun fs =>
    toLowerString q.Typ :: ((if q.Name == "" then [] else [" ", q.Name]) ++ ("\x7b" :: (fs ++ ["\x7d"]))))

/-- Embeds `(*Query).StringChan` of `src/query.go` lines 32-51.  The channel
component models what a receiver observes: `some ts` is a channel that delivers
the tokens `ts` and is then closed, so on every error path the code returns
`some []` — a freshly made channel, closed before being returned, never a nil
channel (the doc comment of the Go function claims a nil channel; the code always
closes and returns the non-nil `ch`). -/
def Query.StringChan (q : Query) : Option (List String) × Option GraphErr :=
  match q.check with
  | .error e => (some [], some e)
  | .ok _ =>
      match queryFieldsCheck q.Fields with
      | .error e => (some [], some e)
      | .ok _ => (q.stringChan, none)

/-- Modelled from the spec (the declaration is not under src/): `StringFromChan`
drains a token channel and concatenates the tokens into one string. -/
def StringFromChan (ts : List String) : String :=
  String.join ts

/-- Embeds `strings.Replace(s, quote, backslash-quote, -1)` as used by
`(*Query).JsonBody`: every occurrence of the one-character pattern `"` is
replaced by the two characters `\"`. -/
def escapeQuotes (s : String) : String :=
  ⟨s.data.flatMap (fun c => if c == '"' then ['\\', '"'] else [c])⟩

/-- Embeds `(*Query).JsonBody` of `src/query.go` lines 106-113: on a `StringChan`
error it returns `("", err)` without draining; otherwise it drains the channel,
escapes embedded double quotes and wraps the text as
`\x7b"query":"<escaped text>"\x7d`.  The impossible drain of a panicking producer
is `none`. -/
def Query.JsonBody (q : Query) : Option (String × Option GraphErr) :=
  match q.StringChan with
  | (_, some e) => some ("", some e)
  | (some ts, none) =>
      some ("\x7b\"query\":\"" ++ escapeQuotes (StringFromChan ts) ++ "\"\x7d", none)
  | (none, none) => none

/-!  Lemmas about the comma joins and the validation pass. -/

/-- Joining token streams with the Go loop equals `List.intercalate` with a
one-token `","` separator: the separator sits strictly between streams. -/
theorem joinStreams_eq_intercalate (tss : List (List String)) :
    joinStreams tss = List.intercalate [","] tss := by
  induction tss with
  | nil => rfl
  | cons ts rest ih =>
    cases rest with
    | nil => simp [joinStreams, joinStreamsRest, List.intercalate]
    | cons ts2 rest2 =>
      have hstep : joinStreams (ts :: ts2 :: rest2) =
          ts ++ "," :: joinStreams (ts2 :: rest2) := rfl
      rw [hstep, ih]
      simp [List.intercalate, List.intersperse_cons_cons]

/-- Joining singleton token streams with the Go loop equals `List.intersperse`:
one `","` strictly between consecutive elements. -/
theorem joinStreams_singletons (l : List String) :
    joinStreams (l.map (fun t => [t])) = List.intersperse "," l := by
  induction l with
  | nil => rfl
  | cons a rest ih =>
    cases rest with
    | nil => rfl
    | cons b rest2 =>
      have hstep : joinStreams ((a :: b :: rest2).map (fun t => [t])) =
          a :: "," :: joinStreams ((b :: rest2).map (fun t => [t])) := rfl
      rw [hstep, ih, List.intersperse_cons_cons]

/-- The recursive argument-stream renderer is `List.mapM` of the per-argument
renderer. -/
theorem argumentStreams_eq_mapM (l : List Argument) :
    argumentStreams l = l.mapM Argument.stringChan := by
  induction l with
  | nil => rfl
  | cons a rest ih =>
    rw [argumentStreams, ih, List.mapM_cons]
    cases Argument.stringChan a <;> cases rest.mapM Argument.stringChan <;> rfl

/-- The recursive object-stream renderer is `List.mapM` of the rendering of each
inner argument list as an `argumentCustom`. -/
theorem objectStreams_eq_mapM (l : List (List Argument)) :
    objectStreams l = l.mapM (fun args => (ArgumentValue.argumentCustom args).stringChan) := by
  induction l with
  | nil => rfl
  | cons args rest ih =>
    rw [objectStreams, ih, List.mapM_cons]
    have hcustom : (ArgumentValue.argumentCustom args).stringChan =
        (argumentStreams args).map (fun tss => "\x7b" :: joinStreams tss ++ ["\x7d"]) := by
      rw [ArgumentValue.stringChan]
    rw [hcustom]
    cases argumentStreams args <;>
      cases rest.mapM (fun args => (ArgumentValue.argumentCustom args).stringChan) <;> rfl

mutual

/-- Validation of a field whose subtree contains a nil subfield slot fails with
some error. -/
theorem Field.check_err_of_hasNil :
    ∀ f : Field, f.hasNilSubfield = true → ∃ e, f.check = Except.error e
  | .mk name al args subs, h => by
      rw [Field.hasNilSubfield] at h
      rw [Field.check]
      by_cases hv : validNameMatch (if al == "" then name else al) = true
      · rw [if_pos hv]
        exact fieldsCheck_err_of_hasNil subs h
      · rw [if_neg hv]
        exact ⟨_, rfl⟩

/-- Validation of a subfield list containing a nil slot, directly or nested,
fails with some error. -/
theorem fieldsCheck_err_of_hasNil :
    ∀ l : List (Option Field), fieldsHaveNil l = true → ∃ e, fieldsCheck l = Except.error e
  | none :: _, _ => ⟨.nilFieldErr, rfl⟩
  | some f :: rest, h => by
      rw [fieldsHaveNil] at h
      rw [fieldsCheck]
      cases hc : Field.check f with
      | error e => exact ⟨e, rfl⟩
      | ok u =>
        rcases Bool.or_eq_true_iff.mp h with hf | hrest
        · rcases Field.check_err_of_hasNil f hf with ⟨e, he⟩
          rw [hc] at he
          cases he
        · exact fieldsCheck_err_of_hasNil rest hrest

end

/-- The top-level field scan of `(*Query).StringChan` computes the same result as
the modelled subfield validation: both walk the list in order, fail on a nil slot
with `NilFieldErr` and otherwise check each field, failing fast. -/
theorem queryFieldsCheck_eq_fieldsCheck (l : List (Option Field)) :
    queryFieldsCheck l = fieldsCheck l := by
  induction l with
  | nil => rfl
  | cons x rest ih =>
    cases x with
    | none => rfl
    | some f =>
      rw [queryFieldsCheck, fieldsCheck, ih]

/-- The top-level field scan reaches a nil slot and reports `NilFieldErr` when
every earlier slot holds a field that validates. -/
theorem queryFieldsCheck_append_nil (pre rest : List (Option Field))
    (hpre : ∀ x ∈ pre, ∃ f, x = some f ∧ Field.check f = Except.ok ()) :
    queryFieldsCheck (pre ++ none :: rest) = Except.error .nilFieldErr := by
  induction pre with
  | nil => rfl
  | cons x pre2 ih =>
    rcases hpre x (List.mem_cons_self x pre2) with ⟨f, rfl, hf⟩
    rw [List.cons_append, queryFieldsCheck, hf]
    exact ih (fun y hy => hpre y (List.mem_cons_of_mem _ hy))

/-!  Claim theorems. -/

/-- Claim C1: rendering a `Query` with operation type `query`, name `Foo` and a
single field `bar` carrying one integer argument `n:1` and no subfields yields the
token stream lowercase-keyword, space, name, brace, the field's tokens, one
trailing `,` separator, closing brace — whose concatenation is exactly
`query Foo\x7bbar(n:1),\x7d`. -/
theorem c1_render_query_foo :
    Query.StringChan ⟨"query", "Foo", [some (.mk "bar" "" [ArgumentInt "n" 1] [])]⟩ =
      (some ["query", " ", "Foo", "\x7b", "bar", "(", "n", ":", "1", ")", ",", "\x7d"], none)
  ∧ StringFromChan ["query", " ", "Foo", "\x7b", "bar", "(", "n", ":", "1", ")", ",", "\x7d"]
      = "query Foo\x7bbar(n:1),\x7d" :=
  ⟨rfl, rfl⟩

/-- Claim C2: for every supported scalar or list shape and every name,
`ArgumentAny` returns, with a nil error, the very `Argument` built by the explicit
constructor for that shape, so in particular their rendered texts agree. -/
theorem c2_argumentAny_matches_explicit (name : String) (b : Bool) (bs : List Bool)
    (n : Int) (ns : List Int) (s : String) (ss : List String) (t : Time) :
    (ArgumentAny name (.goBool b) = (ArgumentBool name b, none)
      ∧ (ArgumentAny name (.goBool b)).1.stringChan = (ArgumentBool name b).stringChan)
  ∧ (ArgumentAny name (.goBoolSlice bs) = (ArgumentBoolSlice name bs, none)
      ∧ (ArgumentAny name (.goBoolSlice bs)).1.stringChan = (ArgumentBoolSlice name bs).stringChan)
  ∧ (ArgumentAny name (.goInt n) = (ArgumentInt name n, none)
      ∧ (ArgumentAny name (.goInt n)).1.stringChan = (ArgumentInt name n).stringChan)
  ∧ (ArgumentAny name (.goIntSlice ns) = (ArgumentIntSlice name ns, none)
      ∧ (ArgumentAny name (.goIntSlice ns)).1.stringChan = (ArgumentIntSlice name ns).stringChan)
  ∧ (ArgumentAny name (.goString s) = (ArgumentString name s, none)
      ∧ (ArgumentAny name (.goString s)).1.stringChan = (ArgumentString name s).stringChan)
  ∧ (ArgumentAny name (.goStringSlice ss) = (ArgumentStringSlice name ss, none)
      ∧ (ArgumentAny name (.goStringSlice ss)).1.stringChan
          = (ArgumentStringSlice name ss).stringChan)
  ∧ (ArgumentAny name (.goTime t) = (ArgumentTime name t, none)
      ∧ (ArgumentAny name (.goTime t)).1.stringChan = (ArgumentTime name t).stringChan) :=
  ⟨⟨rfl, rfl⟩, ⟨rfl, rfl⟩, ⟨rfl, rfl⟩, ⟨rfl, rfl⟩, ⟨rfl, rfl⟩, ⟨rfl, rfl⟩, ⟨rfl, rfl⟩⟩

/-- Claim C3: for every name and every runtime shape outside the supported set
(all such shapes reach the `default` branch, `GoValue.goOther`), `ArgumentAny`
returns the zero `Argument` — empty name, nil value — together with the
`ArgumentTypeNotSupportedErr` carrying the offending value: no silent coercion. -/
theorem c3_argumentAny_unsupported (name shape : String) :
    ArgumentAny name (.goOther shape) =
      (Argument.mk "" none, some (.argumentTypeNotSupportedErr (.goOther shape))) :=
  rfl

/-- Claim C4: every list variant renders an empty sequence as `[]` (`\x7b\x7d`
for `argumentCustom`) with no element text and no separator; every non-empty
sequence places the `,` strictly between consecutive elements
(`List.intersperse` / `List.intercalate`), never leading, never trailing; and
`ArgumentIntSlice "xs"` with no values renders as `xs:[]`. -/
theorem c4_list_separators :
    ((ArgumentValue.argBoolSlice []).stringChan = some ["[", "]"]
      ∧ (ArgumentValue.argIntSlice []).stringChan = some ["[", "]"]
      ∧ (ArgumentValue.argStringSlice []).stringChan = some ["[", "]"]
      ∧ (ArgumentValue.argEnumSlice []).stringChan = some ["[", "]"]
      ∧ (ArgumentValue.argumentCustom []).stringChan = some ["\x7b", "\x7d"]
      ∧ (ArgumentValue.argArgSlice []).stringChan = some ["[", "]"])
  ∧ (∀ bs : List Bool, (ArgumentValue.argBoolSlice bs).stringChan =
      some ("[" :: List.intersperse "," (bs.map boolToken) ++ ["]"]))
  ∧ (∀ ns : List Int, (ArgumentValue.argIntSlice ns).stringChan =
      some ("[" :: List.intersperse "," (ns.map intToken) ++ ["]"]))
  ∧ (∀ ss : List String, (ArgumentValue.argStringSlice ss).stringChan =
      some ("[" :: List.intersperse "," (ss.map (fun s => "\"" ++ s ++ "\"")) ++ ["]"]))
  ∧ (∀ ss : List String, (ArgumentValue.argEnumSlice ss).stringChan =
      some ("[" :: List.intersperse "," ss ++ ["]"]))
  ∧ (∀ (args : List Argument) (tss : List (List String)),
      args.mapM Argument.stringChan = some tss →
      (ArgumentValue.argumentCustom args).stringChan =
        some ("\x7b" :: List.intercalate [","] tss ++ ["\x7d"]))
  ∧ (∀ (argss : List (List Argument)) (tss : List (List String)),
      argss.mapM (fun args => (ArgumentValue.argumentCustom args).stringChan) = some tss →
      (ArgumentValue.argArgSlice argss).stringChan =
        some ("[" :: List.intercalate [","] tss ++ ["]"]))
  ∧ (ArgumentIntSlice "xs" []).stringChan = some ["xs", ":", "[", "]"] := by
  refine ⟨⟨rfl, rfl, rfl, rfl, rfl, rfl⟩, ?_, ?_, ?_, ?_, ?_, ?_, rfl⟩
  · intro bs
    have hm : List.map (fun b => [boolToken b]) bs =
        List.map (fun t => [t]) (List.map boolToken bs) := by
      simp [List.map_map, Function.comp]
    rw [ArgumentValue.stringChan, hm, joinStreams_singletons]
  · intro ns
    have hm : List.map (fun n => [intToken n]) ns =
        List.map (fun t => [t]) (List.map intToken ns) := by
      simp [List.map_map, Function.comp]
    rw [ArgumentValue.stringChan, hm, joinStreams_singletons]
  · intro ss
    have hm : List.map (fun s => ["\"" ++ s ++ "\""]) ss =
        List.map (fun t => [t]) (List.map (fun s => "\"" ++ s ++ "\"") ss) := by
      simp [List.map_map, Function.comp]
    rw [ArgumentValue.stringChan, hm, joinStreams_singletons]
  · intro ss
    rw [ArgumentValue.stringChan, joinStreams_singletons]
  · intro args tss h
    rw [ArgumentValue.stringChan, ← argumentStreams_eq_mapM] at *
    rw [h]
    simp [joinStreams_eq_intercalate]
  · intro argss tss h
    rw [ArgumentValue.stringChan, ← objectStreams_eq_mapM] at *
    rw [h]
    simp [joinStreams_eq_intercalate]

/-- Witness for claim C4 at concrete inputs: the nested object argument
`obj:\x7ba:1,b:true\x7d` of the spec and a one-element object list. -/
theorem c4_list_separators_witness :
    (ArgumentValue.argumentCustom [ArgumentInt "a" 1, ArgumentBool "b" true]).stringChan =
      some ("\x7b" :: List.intercalate [","] [["a", ":", "1"], ["b", ":", "true"]] ++ ["\x7d"])
  ∧ (ArgumentValue.argArgSlice [[ArgumentInt "a" 1]]).stringChan =
      some ("[" :: List.intercalate [","] [["\x7b", "a", ":", "1", "\x7d"]] ++ ["]"]) :=
  ⟨c4_list_separators.2.2.2.2.2.1 [ArgumentInt "a" 1, ArgumentBool "b" true]
      [["a", ":", "1"], ["b", ":", "true"]] rfl,
    c4_list_separators.2.2.2.2.2.2.1 [[ArgumentInt "a" 1]]
      [["\x7b", "a", ":", "1", "\x7d"]] rfl⟩

/-- Claim C5: validation of the operation name succeeds when the name is empty or
matches the name grammar, and fails with an InvalidName error carrying the kind
`operationName` and the offending text when the name is non-empty and does not
match; the grammar rejects a leading digit, an embedded space and an embedded
hyphen, and accepts identifier-shaped names. -/
theorem c5_operation_name_validation (q : Query) :
    (q.Name = "" ∨ validNameMatch q.Name = true → q.checkName = Except.ok ())
  ∧ (q.Name ≠ "" → validNameMatch q.Name = false →
      q.checkName = Except.error (.invalidNameErr .operationName q.Name))
  ∧ validNameMatch "_Foo1" = true
  ∧ validNameMatch "2bad" = false
  ∧ validNameMatch "a b" = false
  ∧ validNameMatch "a-b" = false := by
  refine ⟨?_, ?_, rfl, rfl, rfl, rfl⟩
  · intro h
    rw [Query.checkName]
    rcases h with h | h
    · simp [h]
    · simp [h]
  · intro h1 h2
    rw [Query.checkName]
    simp [h1, h2]

/-- Witness for claim C5: the leading-digit operation name `2bad` fails with the
InvalidName error carrying `operationName` and the text. -/
theorem c5_operation_name_validation_witness :
    Query.checkName ⟨"query", "2bad", []⟩ =
      Except.error (.invalidNameErr .operationName "2bad") :=
  (c5_operation_name_validation ⟨"query", "2bad", []⟩).2.1 (by decide) rfl

/-- Claim C6: for every query whose operation type is not one of query, mutation,
subscription (the empty string included), `StringChan` fails with the
InvalidOperationType error carrying the offending type, and the returned channel
delivers no token at all. -/
theorem c6_invalid_operation_type (q : Query)
    (h : isValidOperationType q.Typ = false) :
    q.StringChan = (some [], some (.invalidOperationTypeErr q.Typ)) := by
  rw [Query.StringChan, Query.check]
  simp [h]

/-- Witness for claim C6: the empty operation type fails with
InvalidOperationType and yields an empty token sequence. -/
theorem c6_invalid_operation_type_witness :
    Query.StringChan ⟨"", "", []⟩ = (some [], some (.invalidOperationTypeErr "")) :=
  c6_invalid_operation_type ⟨"", "", []⟩ rfl

/-- Claim C7 counterexample: at content `x` the QuotedString variant does not
render as claimed — outer quote, single backslash, quote, `x`, single backslash,
quote, outer quote (the 7 characters of the string literal below): the code's
raw-string format emits two backslashes before each inner quote. -/
theorem c7_counterexample :
    (ArgumentValue.argQuotedString "x").stringChan ≠ some ["\"\\\"x\\\"\""] := by
  decide

/-- Claim C7 as amended: for every name and content `s`, the QuotedString variant
renders its value as outer quote, two backslashes, quote, `s`, two backslashes,
quote, outer quote — the text produced by the Go raw-string format
`"\\"%s\\""`, in which `\\` is two literal backslash characters. -/
theorem c7_quoted_string_render (name s : String) :
    (ArgumentQuotedString name s).stringChan =
      some [name, ":", "\"\\\\\"" ++ s ++ "\\\\\"\""] :=
  rfl

/-- Claim C8: whenever `StringChan` succeeds with token sequence `ts`, `JsonBody`
drains it to one string, escapes every embedded `"` as `\"` and returns exactly
`\x7b"query":"<escaped text>"\x7d` with a nil error; `escapeQuotes` replaces
every double-quote character by backslash-quote and leaves every other character
unchanged; and on the concrete query `query\x7bf(a:"x"),\x7d`, whose document
contains double quotes, the produced body escapes them. -/
theorem c8_jsonBody_wrapping (q : Query) (ts : List String)
    (h : q.StringChan = (some ts, none)) :
    q.JsonBody =
      some ("\x7b\"query\":\"" ++ escapeQuotes (StringFromChan ts) ++ "\"\x7d", none)
  ∧ (∀ s : String,
      (escapeQuotes s).data = s.data.flatMap (fun c => if c = '"' then ['\\', '"'] else [c]))
  ∧ Query.JsonBody ⟨"query", "", [some (.mk "f" "" [ArgumentString "a" "x"] [])]⟩ =
      some ("\x7b\"query\":\"query\x7bf(a:\\\"x\\\"),\x7d\"\x7d", none) := by
  refine ⟨?_, ?_, rfl⟩
  · rw [Query.JsonBody, h]
  · intro s
    rw [escapeQuotes]
    have hf : (fun c => if c == '"' then ['\\', '"'] else [c]) =
        (fun c => if c = '"' then ['\\', '"'] else [c]) := by
      funext c
      by_cases hc : c = '"' <;> simp [hc]
    rw [hf]

/-- Witness for claim C8 at the concrete query `query\x7bf(a:"x"),\x7d`. -/
theorem c8_jsonBody_wrapping_witness :
    Query.JsonBody ⟨"query", "", [some (.mk "f" "" [ArgumentString "a" "x"] [])]⟩ =
      some ("\x7b\"query\":\"" ++
        escapeQuotes (StringFromChan
          ["query", "\x7b", "f", "(", "a", ":", "\"x\"", ")", ",", "\x7d"]) ++ "\"\x7d", none) :=
  (c8_jsonBody_wrapping ⟨"query", "", [some (.mk "f" "" [ArgumentString "a" "x"] [])]⟩
    ["query", "\x7b", "f", "(", "a", ":", "\"x\"", ")", ",", "\x7d"] rfl).1

/-- Claim C9 counterexample: the query with unrecognized operation type `bad` and
a nil top-level field slot contains a nil field slot, yet `StringChan` fails with
InvalidOperationType, not with the MissingField error: an earlier validation
error preempts NilFieldErr. -/
theorem c9_counterexample :
    Query.hasNilField ⟨"bad", "", [none]⟩ = true
  ∧ (Query.StringChan ⟨"bad", "", [none]⟩).2 = some (.invalidOperationTypeErr "bad")
  ∧ (Query.StringChan ⟨"bad", "", [none]⟩).2 ≠ some .nilFieldErr := by
  refine ⟨rfl, rfl, ?_⟩
  decide

/-- Claim C9 as amended: a query containing a nil field slot — top-level or in
any subfield list — always fails validation before any token is produced (the
channel is closed empty), and the error is the MissingField error `NilFieldErr`
whenever the nil slot is the first violation in validation order, i.e. the
operation checks pass and every earlier top-level slot holds a field that
validates. -/
theorem c9_nil_field_validation (q : Query) :
    (q.hasNilField = true →
      ((q.StringChan).2).isSome = true ∧ (q.StringChan).1 = some [])
  ∧ (∀ pre rest : List (Option Field), q.check = Except.ok () →
      q.Fields = pre ++ none :: rest →
      (∀ x ∈ pre, ∃ f, x = some f ∧ Field.check f = Except.ok ()) →
      q.StringChan = (some [], some .nilFieldErr)) := by
  constructor
  · intro h
    rw [Query.hasNilField] at h
    rw [Query.StringChan]
    cases hq : q.check with
    | error e => exact ⟨rfl, rfl⟩
    | ok u =>
      rcases fieldsCheck_err_of_hasNil q.Fields h with ⟨e, he⟩
      rw [queryFieldsCheck_eq_fieldsCheck, he]
      exact ⟨rfl, rfl⟩
  · intro pre rest hcheck hfields hpre
    rw [Query.StringChan, hcheck, hfields, queryFieldsCheck_append_nil pre rest hpre]

/-- Witness for claim C9 at a concrete input: a valid query whose only top-level
slot is nil fails with `NilFieldErr` and an empty closed channel. -/
theorem c9_nil_field_validation_witness :
    Query.StringChan ⟨"query", "", [none]⟩ = (some [], some .nilFieldErr) :=
  (c9_nil_field_validation ⟨"query", "", [none]⟩).2 [] [] rfl rfl (by simp)

/-- Claim C10: whenever `StringChan` reports an error, the channel component it
returns is not the nil channel (`none`) but a closed channel delivering zero
tokens (`some []`), contrary to the Go doc comment that claims a nil channel on
error. -/
theorem c10_error_channel_closed (q : Query) (e : GraphErr)
    (h : (q.StringChan).2 = some e) :
    (q.StringChan).1 = some [] := by
  rw [Query.StringChan] at h ⊢
  cases hq : q.check with
  | error e2 => rfl
  | ok u =>
    cases hqf : queryFieldsCheck q.Fields with
    | error e2 => rfl
    | ok u2 =>
      rw [hq, hqf] at h
      cases h

/-- Witness for claim C10: the error path of the empty-typed query returns a
closed, empty, non-nil channel. -/
theorem c10_error_channel_closed_witness :
    (Query.StringChan ⟨"", "", []⟩).1 = some [] :=
  c10_error_channel_closed ⟨"", "", []⟩ (.invalidOperationTypeErr "") rfl

end Graphb
